import Mathlib

/-!
# Verification of the Postmarked album aggregation service

This development is a shallow embedding of `backend/services/aggregation.py`,
the statistical core of the Postmarked backend: it reduces a list of per-image
analysis records to a single album-level profile.

Modelling conventions:
* Python dicts with a fixed field vocabulary become Lean structures whose
  fields are `Option`-typed when the Python code observes absence via
  `dict.get`.
* Python floats are modelled as exact rationals (`ℚ`); `round(x, n)` is
  modelled as exact round-half-to-even at `n` decimal digits, which is the
  rounding rule of Python's builtin `round`.
* A `collections.Counter` is modelled as an association list in key insertion
  order (`counterOf`), matching CPython's documented dict/Counter ordering;
  `Counter.most_common()` is a stable sort descending by count
  (`mostCommon`), matching CPython's stable `sorted(..., reverse=True)`.
* The Python code builds several counters in one pass over the records; since
  the counters are independent, each is modelled as a fold over the
  per-counter occurrence sequence, which preserves the exact order in which
  each counter is updated.
* Operations that can raise in Python (list indexing, division) have, in
  addition to the total model, a "checked" model returning `Option`
  (`aggregate_album_analysis_checked`) in which every such operation is
  guarded; agreement of the two models is proved.
-/

/-! ## Python `round`: round-half-to-even at a given number of decimals -/

/-- Round a rational to the nearest integer, ties going to the even integer
(Python's `round` tie rule). -/
def roundHalfEven (q : ℚ) : ℤ :=
  let f := ⌊q⌋
  let r := q - f
  if r < 1/2 then f
  else if 1/2 < r then f + 1
  else if f % 2 = 0 then f else f + 1

/-- Model of Python `round(q, d)` for a non-negative number of decimals. -/
def pyRound (q : ℚ) (d : ℕ) : ℚ :=
  (roundHalfEven (q * 10 ^ d) : ℚ) / 10 ^ d

theorem floor_le_roundHalfEven (q : ℚ) : ⌊q⌋ ≤ roundHalfEven q := by
  unfold roundHalfEven
  dsimp only
  split_ifs <;> omega

theorem roundHalfEven_le_ceil (q : ℚ) : roundHalfEven q ≤ ⌈q⌉ := by
  unfold roundHalfEven
  dsimp only
  split_ifs with h1 h2 h3
  · exact Int.floor_le_ceil q
  · have hq : (⌊q⌋ : ℚ) < q := by linarith
    have : (⌊q⌋ : ℚ) < (⌈q⌉ : ℚ) := lt_of_lt_of_le hq (Int.le_ceil q)
    have hlt : ⌊q⌋ < ⌈q⌉ := by exact_mod_cast this
    omega
  · exact Int.floor_le_ceil q
  · have hq : (⌊q⌋ : ℚ) < q := by linarith
    have : (⌊q⌋ : ℚ) < (⌈q⌉ : ℚ) := lt_of_lt_of_le hq (Int.le_ceil q)
    have hlt : ⌊q⌋ < ⌈q⌉ := by exact_mod_cast this
    omega

theorem pyRound_nonneg {q : ℚ} (d : ℕ) (h : 0 ≤ q) : 0 ≤ pyRound q d := by
  unfold pyRound
  apply div_nonneg _ (by positivity)
  have h10 : (0 : ℚ) ≤ q * 10 ^ d := by positivity
  have hf : (0 : ℤ) ≤ ⌊q * 10 ^ d⌋ := Int.floor_nonneg.mpr h10
  have := floor_le_roundHalfEven (q * 10 ^ d)
  exact_mod_cast le_trans hf this

theorem pyRound_le_hundred {q : ℚ} (d : ℕ) (h : q ≤ 100) : pyRound q d ≤ 100 := by
  unfold pyRound
  rw [div_le_iff₀ (by positivity)]
  have hq : q * 10 ^ d ≤ 100 * 10 ^ d := by
    apply mul_le_mul_of_nonneg_right h (by positivity)
  have hc : ⌈q * 10 ^ d⌉ ≤ (100 : ℤ) * 10 ^ d := by
    apply Int.ceil_le.mpr
    push_cast
    exact hq
  have := le_trans (roundHalfEven_le_ceil (q * 10 ^ d)) hc
  calc (roundHalfEven (q * 10 ^ d) : ℚ) ≤ ((100 : ℤ) * 10 ^ d : ℤ) := by exact_mod_cast this
    _ = 100 * 10 ^ d := by push_cast; ring

/-! ## Input data model

`AnalysisRecord`s arrive as loosely typed JSON-shaped dicts.  Fields read via
`dict.get` with no default are `Option`-typed; fields read with default `{}`,
`[]` or `0` are materialised through `getD` helpers below. -/

/-- `scene_classification` block of one analysis. -/
structure SceneBlock where
  primary_category : Option String := none
  secondary_categories : List String := []
deriving Repr, DecidableEq, Inhabited

/-- One tracked element inside `segmented_elements` (the Python code only
reads the keys `present`, `prominence` and, for people, `count`). -/
structure ElemData where
  present : Option Bool := none
  prominence : Option ℚ := none
  count : Option ℕ := none
deriving Repr, DecidableEq, Inhabited

/-- `segmented_elements` block: one optional entry per tracked element name. -/
structure SegmentedElements where
  sky : Option ElemData := none
  buildings : Option ElemData := none
  water : Option ElemData := none
  people : Option ElemData := none
  vegetation : Option ElemData := none
  food_drinks : Option ElemData := none
  vehicles_transit : Option ElemData := none
deriving Repr, DecidableEq, Inhabited

/-- Lookup `segments.get(element, {})` for the seven tracked names. -/
def SegmentedElements.get (s : SegmentedElements) (e : String) : Option ElemData :=
  if e = "sky" then s.sky
  else if e = "buildings" then s.buildings
  else if e = "water" then s.water
  else if e = "people" then s.people
  else if e = "vegetation" then s.vegetation
  else if e = "food_drinks" then s.food_drinks
  else if e = "vehicles_transit" then s.vehicles_transit
  else none

/-- `visual_features` block. -/
structure VisualBlock where
  dominant_colors : List String := []
  color_temperature : Option String := none
  lighting_condition : Option String := none
  indoor_outdoor : Option String := none
  time_of_day : Option String := none
  weather_apparent : Option String := none
deriving Repr, DecidableEq, Inhabited

/-- `mood_atmosphere` block. -/
structure MoodBlock where
  overall_mood : Option String := none
  energy_level : Option String := none
  descriptive_tags : List String := []
deriving Repr, DecidableEq, Inhabited

/-- The `analysis` payload of one record. -/
structure Analysis where
  scene_classification : Option SceneBlock := none
  segmented_elements : Option SegmentedElements := none
  visual_features : Option VisualBlock := none
  mood_atmosphere : Option MoodBlock := none
  notable_elements : Option (List String) := none
deriving Repr, DecidableEq, Inhabited

/-- One element of the `image_analyses` input list. -/
structure ImageRecord where
  success : Bool := false
  analysis : Option Analysis := none
deriving Repr, DecidableEq, Inhabited

/-- Python truthiness of the `analysis` dict: a dict is truthy iff non-empty,
i.e. at least one of its keys is present. -/
def analysisNonEmpty (x : Analysis) : Bool :=
  x.scene_classification.isSome || x.segmented_elements.isSome ||
  x.visual_features.isSome || x.mood_atmosphere.isSome || x.notable_elements.isSome

/-- The validity filter of `aggregate_album_analysis`:
`a.get("success") and a.get("analysis")`. -/
def recordValid (r : ImageRecord) : Bool :=
  r.success && (match r.analysis with
    | some x => analysisNonEmpty x
    | none => false)

/-- `[a["analysis"] for a in image_analyses if a.get("success") and a.get("analysis")]` -/
def validAnalyses (image_analyses : List ImageRecord) : List Analysis :=
  (image_analyses.filter recordValid).filterMap (fun r => r.analysis)

/-- Python truthiness filter for an optional string: `None` and the empty
string are falsy (`if primary:`, walrus conditions in the reducers). -/
def strTruthy (o : Option String) : Option String :=
  match o with
  | some s => if s = "" then none else some s
  | none => none

/-! ## Counters

`collections.Counter` keeps keys in first-insertion order; `c[x] += 1`
updates an existing key in place and appends a fresh key at the end.
`most_common()` sorts by count, descending, and CPython's sort is stable, so
equal counts stay in insertion (= first-seen) order. -/

/-- One `counter[x] += 1` step. -/
def bump (acc : List (String × ℕ)) (x : String) : List (String × ℕ) :=
  if acc.any (fun p => p.1 == x) then
    acc.map (fun p => if p.1 = x then (p.1, p.2 + 1) else p)
  else acc ++ [(x, 1)]

/-- `Counter(occurrences)`: fold `bump` over the occurrence sequence. -/
def counterOf (l : List String) : List (String × ℕ) :=
  l.foldl bump []

/-- `Counter.most_common()` (no argument): all entries, stably sorted by
count, descending. -/
def mostCommon (c : List (String × ℕ)) : List (String × ℕ) :=
  c.insertionSort (fun p q => q.2 ≤ p.2)

/-- Index of the first occurrence of `x` in `l` (length of `l` if absent). -/
def firstIdx (x : String) : List String → ℕ
  | [] => 0
  | y :: l => if y = x then 0 else firstIdx x l + 1

/-! ## Output data model

Field names follow the dict keys produced by the Python reducers; nested
one-key-per-field sub-dicts of the visual summary are flattened with
compound names (e.g. `color_temperature_dominant` is
`visual_summary["color_temperature"]["dominant"]`). -/

/-- Entry of the ranked scene-category lists. -/
structure RankedCategory where
  category : String
  count : ℕ
  percentage : ℚ
deriving Repr, DecidableEq, Inhabited

/-- Result of `_aggregate_scene_classifications`. -/
structure SceneSummary where
  primary_categories : List RankedCategory
  all_categories : List RankedCategory
  dominant_scene_type : String
  scene_diversity : ℕ
deriving Repr, DecidableEq, Inhabited

/-- Per-element statistics inside `element_stats`. -/
structure ElementStats where
  presence_count : ℕ
  presence_rate : ℚ
  avg_prominence : ℚ
deriving Repr, DecidableEq, Inhabited

/-- Entry of `ranked_by_presence` (`{"element": e, **s}`). -/
structure RankedElement where
  element : String
  presence_count : ℕ
  presence_rate : ℚ
  avg_prominence : ℚ
deriving Repr, DecidableEq, Inhabited

/-- The `people_presence` sub-dict. -/
structure PeoplePresence where
  images_with_people : ℕ
  avg_people_per_image : ℚ
deriving Repr, DecidableEq, Inhabited

/-- Result of `_aggregate_segmented_elements`. -/
structure ElementSummary where
  element_stats : List (String × ElementStats)
  ranked_by_presence : List RankedElement
  dominant_elements : List String
  rare_elements : List String
  people_presence : PeoplePresence
deriving Repr, DecidableEq, Inhabited

/-- Entry of `top_colors`. -/
structure ColorCount where
  color : String
  count : ℕ
deriving Repr, DecidableEq, Inhabited

/-- Result of `_aggregate_visual_features` (nested dicts flattened). -/
structure VisualSummary where
  top_colors : List ColorCount
  unique_colors_mentioned : ℕ
  color_temperature_distribution : List (String × ℕ)
  color_temperature_dominant : String
  lighting_distribution : List (String × ℕ)
  lighting_dominant : String
  indoor_outdoor_distribution : List (String × ℕ)
  primary_setting : String
  time_of_day_distribution : List (String × ℕ)
  time_of_day_most_common : String
  weather_distribution : List (String × ℕ)
  weather_most_common : String
deriving Repr, DecidableEq, Inhabited

/-- Entry of `top_atmosphere_tags`. -/
structure TagCount where
  tag : String
  count : ℕ
deriving Repr, DecidableEq, Inhabited

/-- Result of `_aggregate_mood_atmosphere`. -/
structure MoodSummary where
  mood_distribution : List (String × ℕ)
  dominant_mood : String
  secondary_moods : List String
  energy_distribution : List (String × ℕ)
  overall_energy : String
  top_atmosphere_tags : List TagCount
  mood_consistency : ℚ
deriving Repr, DecidableEq, Inhabited

/-- Entry of `all_notable_elements`. -/
structure NotableCount where
  element : String
  count : ℕ
deriving Repr, DecidableEq, Inhabited

/-- Result of `_aggregate_notable_elements`. -/
structure NotableSummary where
  all_notable_elements : List NotableCount
  unique_notable_count : ℕ
  recurring_elements : List String
deriving Repr, DecidableEq, Inhabited

/-- Result of `_create_synthesis_prompt_data`. -/
structure SynthesisPromptData where
  primary_scene_type : String
  secondary_scene_types : List String
  dominant_visual_elements : List String
  color_palette : List String
  color_temperature : String
  lighting_style : String
  setting : String
  time_of_day : String
  dominant_mood : String
  mood_descriptors : List String
  energy_level : String
  recurring_notable_elements : List String
  has_people : Bool
deriving Repr, DecidableEq, Inhabited

/-- The success payload of `aggregate_album_analysis`. -/
structure AlbumProfile where
  total_images_analyzed : ℕ
  scene_summary : SceneSummary
  element_summary : ElementSummary
  visual_summary : VisualSummary
  mood_summary : MoodSummary
  notable_elements : NotableSummary
  synthesis_prompt_data : SynthesisPromptData
deriving Repr, DecidableEq, Inhabited

/-- Overall result: either the error dict
`{"success": False, "error": ...}` or the success dict. -/
inductive AggResult where
  | err (error : String)
  | ok (profile : AlbumProfile)
deriving Repr, DecidableEq, Inhabited

/-- The profile of a success result. -/
def profileOf : AggResult → Option AlbumProfile
  | .ok p => some p
  | .err _ => none

/-! ## Scene reducer -/

/-- `analysis.get("scene_classification", {})` -/
def sceneOf (a : Analysis) : SceneBlock :=
  a.scene_classification.getD {}

/-- The sequence of occurrences accumulated into the `primary_categories`
counter: one per record whose `primary_category` is truthy, in record
order. -/
def primaryOcc (analyses : List Analysis) : List String :=
  analyses.filterMap (fun a => strTruthy (sceneOf a).primary_category)

/-- The sequence of occurrences accumulated into the `all_categories`
counter: per record its truthy primary category (once) followed by each of
its secondary categories, in record order. -/
def sceneOcc (analyses : List Analysis) : List String :=
  (analyses.map (fun a =>
    (strTruthy (sceneOf a).primary_category).toList ++ (sceneOf a).secondary_categories)).flatten

/-- `_aggregate_scene_classifications` -/
def aggregateSceneClassifications (analyses : List Analysis) : SceneSummary :=
  let primary_categories := counterOf (primaryOcc analyses)
  let all_categories := counterOf (sceneOcc analyses)
  let total := analyses.length
  let primary_ranked := (mostCommon primary_categories).map (fun p =>
    { category := p.1, count := p.2,
      percentage := pyRound ((p.2 : ℚ) / total * 100) 1 : RankedCategory })
  let all_ranked := (mostCommon all_categories).map (fun p =>
    { category := p.1, count := p.2,
      percentage := pyRound ((p.2 : ℚ) / total * 100) 1 : RankedCategory })
  { primary_categories := primary_ranked
    all_categories := all_ranked
    dominant_scene_type :=
      match primary_ranked with
      | [] => "mixed"
      | r :: _ => r.category
    scene_diversity := primary_categories.length }

/-! ## Element reducer -/

/-- The fixed universe of tracked elements. -/
def elements_to_track : List String :=
  ["sky", "buildings", "water", "people", "vegetation", "food_drinks", "vehicles_transit"]

/-- `analysis.get("segmented_elements", {})` -/
def segOf (a : Analysis) : SegmentedElements :=
  a.segmented_elements.getD {}

/-- `segments.get(element, {})` -/
def elemDataOf (a : Analysis) (e : String) : ElemData :=
  ((segOf a).get e).getD {}

/-- `elem_data.get("present")` truthiness. -/
def elemPresent (a : Analysis) (e : String) : Bool :=
  (elemDataOf a e).present.getD false

/-- `element_presence[element]`: number of records where the element is
present. -/
def elementPresence (analyses : List Analysis) (e : String) : ℕ :=
  (analyses.filter (fun a => elemPresent a e)).length

/-- `element_prominence_sum[element]`: sum of `elem_data.get("prominence", 0)`
over the records where the element is present. -/
def elementProminenceSum (analyses : List Analysis) (e : String) : ℚ :=
  ((analyses.filter (fun a => elemPresent a e)).map
    (fun a => (elemDataOf a e).prominence.getD 0)).sum

/-- A record qualifies for the people aggregates when people are present and
`elem_data.get("count", 0)` is truthy. -/
def peopleQualifies (a : Analysis) : Bool :=
  elemPresent a "people" && ((elemDataOf a "people").count.getD 0 != 0)

/-- `people_images` -/
def peopleImages (analyses : List Analysis) : ℕ :=
  (analyses.filter peopleQualifies).length

/-- `people_count_total` -/
def peopleCountTotal (analyses : List Analysis) : ℕ :=
  (analyses.map (fun a =>
    if peopleQualifies a then (elemDataOf a "people").count.getD 0 else 0)).sum

/-- Python `sorted(element_stats.items(), key=lambda x: (x[1]["presence_count"],
x[1]["avg_prominence"]), reverse=True)` compares key tuples; with
`reverse=True` the sort is descending and stable. -/
def elemKeyGE (p q : String × ElementStats) : Prop :=
  q.2.presence_count < p.2.presence_count ∨
    (q.2.presence_count = p.2.presence_count ∧ q.2.avg_prominence ≤ p.2.avg_prominence)

instance : DecidableRel elemKeyGE := by
  intro p q
  unfold elemKeyGE
  infer_instance

/-- `_aggregate_segmented_elements` -/
def aggregateSegmentedElements (analyses : List Analysis) : ElementSummary :=
  let total := analyses.length
  let element_stats := elements_to_track.map (fun e =>
    let presence := elementPresence analyses e
    (e, { presence_count := presence
          presence_rate := pyRound ((presence : ℚ) / total * 100) 1
          avg_prominence :=
            if presence > 0 then pyRound (elementProminenceSum analyses e / presence) 2
            else 0 : ElementStats }))
  let ranked_elements := element_stats.insertionSort elemKeyGE
  let dominant_elements :=
    (ranked_elements.filter (fun p => 50 ≤ p.2.presence_rate)).map (fun p => p.1)
  let rare_elements :=
    (ranked_elements.filter (fun p => 0 < p.2.presence_rate ∧ p.2.presence_rate < 20)).map
      (fun p => p.1)
  { element_stats := element_stats
    ranked_by_presence := ranked_elements.map (fun p =>
      { element := p.1, presence_count := p.2.presence_count,
        presence_rate := p.2.presence_rate, avg_prominence := p.2.avg_prominence })
    dominant_elements := dominant_elements
    rare_elements := rare_elements
    people_presence :=
      { images_with_people := peopleImages analyses
        avg_people_per_image :=
          if peopleImages analyses > 0 then
            pyRound ((peopleCountTotal analyses : ℚ) / (peopleImages analyses : ℚ)) 1
          else 0 } }

/-! ## Visual-feature reducer -/

/-- `analysis.get("visual_features", {})` -/
def visualOf (a : Analysis) : VisualBlock :=
  a.visual_features.getD {}

/-- `all_colors`: the concatenation of `visual.get("dominant_colors", [])`. -/
def allColors (analyses : List Analysis) : List String :=
  (analyses.map (fun a => (visualOf a).dominant_colors)).flatten

/-- Occurrences of `color_temperature` (walrus truthiness check). -/
def ctOcc (analyses : List Analysis) : List String :=
  analyses.filterMap (fun a => strTruthy (visualOf a).color_temperature)

/-- Occurrences of `lighting_condition`. -/
def lightingOcc (analyses : List Analysis) : List String :=
  analyses.filterMap (fun a => strTruthy (visualOf a).lighting_condition)

/-- Occurrences of `indoor_outdoor`. -/
def ioOcc (analyses : List Analysis) : List String :=
  analyses.filterMap (fun a => strTruthy (visualOf a).indoor_outdoor)

/-- Occurrences of `time_of_day`. -/
def todOcc (analyses : List Analysis) : List String :=
  analyses.filterMap (fun a => strTruthy (visualOf a).time_of_day)

/-- Occurrences of `weather_apparent`. -/
def weatherOcc (analyses : List Analysis) : List String :=
  analyses.filterMap (fun a => strTruthy (visualOf a).weather_apparent)

/-- `counter.most_common(1)[0][0] if counter else fallback` -/
def topOr (c : List (String × ℕ)) (fallback : String) : String :=
  if c = [] then fallback
  else ((((mostCommon c).take 1).map (fun p => p.1)).headI)

/-- `_aggregate_visual_features` -/
def aggregateVisualFeatures (analyses : List Analysis) : VisualSummary :=
  let color_counts := counterOf (allColors analyses)
  let color_temperatures := counterOf (ctOcc analyses)
  let lighting_conditions := counterOf (lightingOcc analyses)
  let indoor_outdoor := counterOf (ioOcc analyses)
  let times_of_day := counterOf (todOcc analyses)
  let weather := counterOf (weatherOcc analyses)
  { top_colors := ((mostCommon color_counts).take 8).map (fun p => ⟨p.1, p.2⟩)
    unique_colors_mentioned := color_counts.length
    color_temperature_distribution := color_temperatures
    color_temperature_dominant := topOr color_temperatures "mixed"
    lighting_distribution := lighting_conditions
    lighting_dominant := topOr lighting_conditions "varied"
    indoor_outdoor_distribution := indoor_outdoor
    primary_setting := topOr indoor_outdoor "mixed"
    time_of_day_distribution := times_of_day
    time_of_day_most_common := topOr times_of_day "varied"
    weather_distribution := weather
    weather_most_common := topOr weather "varied" }

/-! ## Mood reducer -/

/-- `analysis.get("mood_atmosphere", {})` -/
def moodOf (a : Analysis) : MoodBlock :=
  a.mood_atmosphere.getD {}

/-- Occurrences of `overall_mood` (walrus truthiness check). -/
def moodOcc (analyses : List Analysis) : List String :=
  analyses.filterMap (fun a => strTruthy (moodOf a).overall_mood)

/-- Occurrences of `energy_level`. -/
def energyOcc (analyses : List Analysis) : List String :=
  analyses.filterMap (fun a => strTruthy (moodOf a).energy_level)

/-- `all_tags`: concatenation of `mood_data.get("descriptive_tags", [])`. -/
def allTags (analyses : List Analysis) : List String :=
  (analyses.map (fun a => (moodOf a).descriptive_tags)).flatten

/-- `_aggregate_mood_atmosphere` -/
def aggregateMoodAtmosphere (analyses : List Analysis) : MoodSummary :=
  let moods := counterOf (moodOcc analyses)
  let energy_levels := counterOf (energyOcc analyses)
  let tag_counts := counterOf (allTags analyses)
  { mood_distribution := moods
    dominant_mood := topOr moods "mixed"
    secondary_moods :=
      if moods.length > 1 then (((mostCommon moods).take 3).drop 1).map (fun p => p.1)
      else []
    energy_distribution := energy_levels
    overall_energy := topOr energy_levels "medium"
    top_atmosphere_tags := ((mostCommon tag_counts).take 10).map (fun p => ⟨p.1, p.2⟩)
    mood_consistency :=
      if moods = [] then 0
      else ((((mostCommon moods).take 1).map (fun p => p.2)).headI : ℚ) / analyses.length }

/-! ## Notable-elements reducer -/

/-- `all_notable`: concatenation of `analysis.get("notable_elements", [])`. -/
def allNotable (analyses : List Analysis) : List String :=
  (analyses.map (fun a => a.notable_elements.getD [])).flatten

/-- `_aggregate_notable_elements`; note that `recurring_elements` filters
`notable_counts.items()`, i.e. the counter in insertion order, not the
`most_common(20)` list. -/
def aggregateNotableElements (analyses : List Analysis) : NotableSummary :=
  let notable_counts := counterOf (allNotable analyses)
  { all_notable_elements := ((mostCommon notable_counts).take 20).map (fun p => ⟨p.1, p.2⟩)
    unique_notable_count := notable_counts.length
    recurring_elements := (notable_counts.filter (fun p => 2 ≤ p.2)).map (fun p => p.1) }

/-! ## Synthesis projector and top-level entry point -/

/-- `_create_synthesis_prompt_data`; the Python `.get(..., default)` chains
never hit their defaults because each reducer always emits every key, so they
are embedded as plain field projections. -/
def createSynthesisPromptData (scene_summary : SceneSummary)
    (element_summary : ElementSummary) (visual_summary : VisualSummary)
    (mood_summary : MoodSummary) (notable_summary : NotableSummary) :
    SynthesisPromptData :=
  { primary_scene_type := scene_summary.dominant_scene_type
    secondary_scene_types :=
      ((scene_summary.primary_categories.drop 1).take 3).map (fun c => c.category)
    dominant_visual_elements := element_summary.dominant_elements
    color_palette := (visual_summary.top_colors.take 5).map (fun c => c.color)
    color_temperature := visual_summary.color_temperature_dominant
    lighting_style := visual_summary.lighting_dominant
    setting := visual_summary.primary_setting
    time_of_day := visual_summary.time_of_day_most_common
    dominant_mood := mood_summary.dominant_mood
    mood_descriptors :=
      mood_summary.secondary_moods ++ (mood_summary.top_atmosphere_tags.take 5).map (fun t => t.tag)
    energy_level := mood_summary.overall_energy
    recurring_notable_elements := notable_summary.recurring_elements.take 10
    has_people := decide (0 < element_summary.people_presence.images_with_people) }

/-- `aggregate_album_analysis` -/
def aggregate_album_analysis (image_analyses : List ImageRecord) : AggResult :=
  let valid_analyses := validAnalyses image_analyses
  if valid_analyses = [] then
    .err "No valid image analyses to aggregate"
  else
    let total_images := valid_analyses.length
    let scene_summary := aggregateSceneClassifications valid_analyses
    let element_summary := aggregateSegmentedElements valid_analyses
    let visual_summary := aggregateVisualFeatures valid_analyses
    let mood_summary := aggregateMoodAtmosphere valid_analyses
    let notable_summary := aggregateNotableElements valid_analyses
    .ok
      { total_images_analyzed := total_images
        scene_summary := scene_summary
        element_summary := element_summary
        visual_summary := visual_summary
        mood_summary := mood_summary
        notable_elements := notable_summary
        synthesis_prompt_data := createSynthesisPromptData scene_summary element_summary
          visual_summary mood_summary notable_summary }

/-! ## Counter lemmas -/

theorem firstIdx_append_of_mem {x : String} :
    ∀ {l : List String} (l' : List String), x ∈ l → firstIdx x (l ++ l') = firstIdx x l := by
  intro l
  induction l with
  | nil => intro l' h; cases h
  | cons y t ih =>
    intro l' h
    by_cases hyx : y = x
    · simp [firstIdx, hyx]
    · have hx : x ∈ t := by
        rcases List.mem_cons.mp h with h1 | h1
        · exact absurd h1.symm hyx
        · exact h1
      simp [firstIdx, hyx, ih l' hx]

theorem firstIdx_lt_length {x : String} :
    ∀ {l : List String}, x ∈ l → firstIdx x l < l.length := by
  intro l
  induction l with
  | nil => intro h; cases h
  | cons y t ih =>
    intro h
    by_cases hyx : y = x
    · simp [firstIdx, hyx]
    · have hx : x ∈ t := by
        rcases List.mem_cons.mp h with h1 | h1
        · exact absurd h1.symm hyx
        · exact h1
      simpa [firstIdx, hyx] using ih hx

theorem firstIdx_append_self {x : String} :
    ∀ {l : List String}, x ∉ l → firstIdx x (l ++ [x]) = l.length := by
  intro l
  induction l with
  | nil => intro _; simp [firstIdx]
  | cons y t ih =>
    intro h
    have hyx : y ≠ x := fun he => h (he ▸ List.mem_cons_self y t)
    have hx : x ∉ t := fun hm => h (List.mem_cons_of_mem y hm)
    simp [firstIdx, hyx, ih hx]

theorem bump_mem_keys {acc : List (String × ℕ)} {x y : String} :
    (y ∈ (bump acc x).map Prod.fst) ↔ y ∈ acc.map Prod.fst ∨ y = x := by
  unfold bump
  by_cases h : acc.any (fun p => p.1 == x)
  · simp only [h, if_true]
    have hx : x ∈ acc.map Prod.fst := by
      rcases List.any_eq_true.mp h with ⟨p, hp, he⟩
      exact List.mem_map.mpr ⟨p, hp, beq_iff_eq.mp he⟩
    constructor
    · intro hy
      rcases List.mem_map.mp hy with ⟨p, hp, hfst⟩
      rcases List.mem_map.mp hp with ⟨q, hq, rfl⟩
      by_cases hqx : q.1 = x
      · left
        simp only [hqx, if_true] at hfst
        exact hfst ▸ hx
      · left
        simp only [hqx, if_false] at hfst
        exact List.mem_map.mpr ⟨q, hq, hfst⟩
    · intro hy
      rcases hy with hy | rfl
      · rcases List.mem_map.mp hy with ⟨q, hq, rfl⟩
        apply List.mem_map.mpr
        refine ⟨(if q.1 = x then (q.1, q.2 + 1) else q), List.mem_map.mpr ⟨q, hq, rfl⟩, ?_⟩
        by_cases hqx : q.1 = x <;> simp [hqx]
      · rcases List.mem_map.mp hx with ⟨q, hq, rfl⟩
        apply List.mem_map.mpr
        refine ⟨(if q.1 = q.1 then (q.1, q.2 + 1) else q), List.mem_map.mpr ⟨q, hq, by simp⟩, by simp⟩
  · simp only [h, if_false]
    simp [List.mem_map, or_comm]

theorem counterOf_append (l : List String) (x : String) :
    counterOf (l ++ [x]) = bump (counterOf l) x := by
  unfold counterOf
  rw [List.foldl_append]
  rfl

theorem bump_pos {acc : List (String × ℕ)} {x : String}
    (h : acc.any (fun p => p.1 == x) = true) :
    bump acc x = acc.map (fun p => if p.1 = x then (p.1, p.2 + 1) else p) := by
  simp [bump, h]

theorem bump_neg {acc : List (String × ℕ)} {x : String}
    (h : acc.any (fun p => p.1 == x) = false) :
    bump acc x = acc ++ [(x, 1)] := by
  simp [bump, h]

/-- Joint structural invariant of `counterOf`: every entry counts the
occurrences of its key, keys are exactly the distinct elements in first-seen
order, without duplicates. -/
theorem counterOf_invariant (l : List String) :
    (∀ p ∈ counterOf l, p.1 ∈ l ∧ p.2 = l.count p.1) ∧
    ((counterOf l).map Prod.fst).Nodup ∧
    (∀ x, x ∈ l → x ∈ (counterOf l).map Prod.fst) ∧
    (counterOf l).Pairwise (fun p q => firstIdx p.1 l < firstIdx q.1 l) := by
  induction l using List.reverseRecOn with
  | nil => simp [counterOf]
  | append_singleton l x ih =>
    obtain ⟨ihcnt, ihnd, ihmem, ihpw⟩ := ih
    have hkeys_sub : ∀ y, y ∈ (counterOf l).map Prod.fst → y ∈ l := by
      intro y hy
      rcases List.mem_map.mp hy with ⟨p, hp, rfl⟩
      exact (ihcnt p hp).1
    rw [counterOf_append]
    cases h : (counterOf l).any (fun p => p.1 == x) with
    | true =>
      -- the key is already present: counts are bumped in place
      have hxl : x ∈ l := by
        rcases List.any_eq_true.mp h with ⟨p, hp, he⟩
        exact (beq_iff_eq.mp he) ▸ (ihcnt p hp).1
      rw [bump_pos h]
      refine ⟨?_, ?_, ?_, ?_⟩
      · intro p hp
        rcases List.mem_map.mp hp with ⟨q, hq, rfl⟩
        obtain ⟨hq1, hq2⟩ := ihcnt q hq
        by_cases hqx : q.1 = x
        · simp only [hqx, if_true]
          constructor
          · exact List.mem_append_left _ hxl
          · rw [List.count_append, hq2, hqx]
            simp
        · simp only [hqx, if_false]
          constructor
          · exact List.mem_append_left _ hq1
          · rw [List.count_append, hq2]
            simp [List.count_singleton, hqx]
      · have : ((counterOf l).map (fun p => if p.1 = x then (p.1, p.2 + 1) else p)).map Prod.fst
            = (counterOf l).map Prod.fst := by
          rw [List.map_map]
          apply List.map_congr_left
          intro p _
          by_cases hqx : p.1 = x <;> simp [hqx]
        rw [this]
        exact ihnd
      · intro y hy
        have : ((counterOf l).map (fun p => if p.1 = x then (p.1, p.2 + 1) else p)).map Prod.fst
            = (counterOf l).map Prod.fst := by
          rw [List.map_map]
          apply List.map_congr_left
          intro p _
          by_cases hqx : p.1 = x <;> simp [hqx]
        rw [this]
        rcases List.mem_append.mp hy with hy | hy
        · exact ihmem y hy
        · rw [List.mem_singleton.mp hy]
          exact ihmem x hxl
      · apply List.Pairwise.map
        · intro p q hpq
          have hp1 : (if p.1 = x then (p.1, p.2 + 1) else p).1 = p.1 := by
            by_cases hqx : p.1 = x <;> simp [hqx]
          have hq1 : (if q.1 = x then (q.1, q.2 + 1) else q).1 = q.1 := by
            by_cases hqx : q.1 = x <;> simp [hqx]
          rw [hp1, hq1]
          exact hpq
        · apply ihpw.imp_of_mem
          intro p q hp hq hpq
          have hp1 : p.1 ∈ l := (ihcnt p hp).1
          have hq1 : q.1 ∈ l := (ihcnt q hq).1
          rw [firstIdx_append_of_mem _ hp1, firstIdx_append_of_mem _ hq1]
          exact hpq
    | false =>
      -- fresh key: appended at the end with count 1
      have hxnl : x ∉ l := by
        intro hxl
        rcases List.mem_map.mp (ihmem x hxl) with ⟨p, hp, hfst⟩
        have htrue : (counterOf l).any (fun p => p.1 == x) = true :=
          List.any_eq_true.mpr ⟨p, hp, by simp [hfst]⟩
        rw [h] at htrue
        cases htrue
      rw [bump_neg h]
      refine ⟨?_, ?_, ?_, ?_⟩
      · intro p hp
        rcases List.mem_append.mp hp with hp | hp
        · obtain ⟨hq1, hq2⟩ := ihcnt p hp
          have hpx : p.1 ≠ x := fun he => hxnl (he ▸ hq1)
          constructor
          · exact List.mem_append_left _ hq1
          · rw [List.count_append, hq2]
            simp [List.count_singleton, hpx]
        · rw [List.mem_singleton.mp hp]
          constructor
          · exact List.mem_append_right _ (List.mem_singleton_self x)
          · rw [List.count_append, List.count_eq_zero_of_not_mem hxnl]
            simp
      · rw [List.map_append]
        rw [List.nodup_append]
        refine ⟨ihnd, List.nodup_singleton x, ?_⟩
        intro y hy hy'
        simp only [List.map_singleton, List.mem_singleton] at hy'
        subst hy'
        exact hxnl (hkeys_sub _ hy)
      · intro y hy
        rw [List.map_append]
        rcases List.mem_append.mp hy with hy | hy
        · exact List.mem_append_left _ (ihmem y hy)
        · rw [List.mem_singleton.mp hy]
          apply List.mem_append_right
          simp
      · rw [List.pairwise_append]
        refine ⟨?_, List.pairwise_singleton _ _, ?_⟩
        · apply ihpw.imp_of_mem
          intro p q hp hq hpq
          rw [firstIdx_append_of_mem _ (ihcnt p hp).1, firstIdx_append_of_mem _ (ihcnt q hq).1]
          exact hpq
        · intro p hp q hq
          rw [List.mem_singleton.mp hq]
          have hp1 : p.1 ∈ l := (ihcnt p hp).1
          rw [firstIdx_append_of_mem _ hp1]
          simp only []
          rw [firstIdx_append_self hxnl]
          exact firstIdx_lt_length hp1

theorem counterOf_count {l : List String} {p : String × ℕ} (hp : p ∈ counterOf l) :
    p.1 ∈ l ∧ p.2 = l.count p.1 :=
  (counterOf_invariant l).1 p hp

theorem counterOf_keys_nodup (l : List String) : ((counterOf l).map Prod.fst).Nodup :=
  (counterOf_invariant l).2.1

theorem counterOf_mem_keys {l : List String} {x : String} (hx : x ∈ l) :
    x ∈ (counterOf l).map Prod.fst :=
  (counterOf_invariant l).2.2.1 x hx

theorem counterOf_pairwise_firstIdx (l : List String) :
    (counterOf l).Pairwise (fun p q => firstIdx p.1 l < firstIdx q.1 l) :=
  (counterOf_invariant l).2.2.2

theorem counterOf_eq_nil_iff {l : List String} : counterOf l = [] ↔ l = [] := by
  constructor
  · intro h
    cases l with
    | nil => rfl
    | cons x t =>
      have := counterOf_mem_keys (List.mem_cons_self x t)
      rw [h] at this
      cases this
  · intro h; subst h; rfl

/-! ## Stability of the descending count sort

CPython's `sorted(items, key=itemgetter(1), reverse=True)` is stable:
entries with equal counts keep their relative (insertion) order. The model
`mostCommon` is an insertion sort with relation `q.2 ≤ p.2`, which is stable
in the same sense; the lemmas below make the stability explicit. -/

theorem orderedInsert_count_stable {α : Type} (cnt : α → ℕ) (Q : α → α → Prop) (a : α) :
    ∀ l : List α,
      l.Pairwise (fun p q => cnt q < cnt p ∨ (cnt p = cnt q ∧ Q p q)) →
      (∀ x ∈ l, Q a x) →
      (l.orderedInsert (fun p q => cnt q ≤ cnt p) a).Pairwise
        (fun p q => cnt q < cnt p ∨ (cnt p = cnt q ∧ Q p q)) := by
  intro l
  induction l with
  | nil => intro _ _; exact List.pairwise_singleton _ _
  | cons b t ih =>
    intro hp ha
    rw [List.orderedInsert]
    by_cases hab : cnt b ≤ cnt a
    · simp only [hab, if_true]
      apply List.Pairwise.cons _ hp
      intro y hy
      rcases List.mem_cons.mp hy with rfl | hyt
      · rcases lt_or_eq_of_le hab with hlt | heq
        · exact Or.inl hlt
        · exact Or.inr ⟨heq.symm, ha y (List.mem_cons_self _ _)⟩
      · have hby := (List.pairwise_cons.mp hp).1 y hyt
        have hyb : cnt y ≤ cnt b := by
          rcases hby with hlt | ⟨heq, _⟩
          · exact le_of_lt hlt
          · exact le_of_eq heq.symm
        rcases lt_or_eq_of_le (le_trans hyb hab) with hlt | heq
        · exact Or.inl hlt
        · exact Or.inr ⟨heq.symm, ha y (List.mem_cons_of_mem _ hyt)⟩
    · simp only [hab, if_false]
      obtain ⟨hbt, hpt⟩ := List.pairwise_cons.mp hp
      apply List.Pairwise.cons
      · intro y hy
        rcases (List.mem_orderedInsert _).mp hy with rfl | hyt
        · exact Or.inl (lt_of_not_le hab)
        · exact hbt y hyt
      · exact ih hpt (fun x hx => ha x (List.mem_cons_of_mem _ hx))

theorem insertionSort_count_stable {α : Type} (cnt : α → ℕ) (Q : α → α → Prop) :
    ∀ l : List α, l.Pairwise Q →
      (l.insertionSort (fun p q => cnt q ≤ cnt p)).Pairwise
        (fun p q => cnt q < cnt p ∨ (cnt p = cnt q ∧ Q p q)) := by
  intro l
  induction l with
  | nil => intro _; exact List.Pairwise.nil
  | cons a t ih =>
    intro hp
    obtain ⟨hat, hpt⟩ := List.pairwise_cons.mp hp
    rw [List.insertionSort]
    apply orderedInsert_count_stable
    · exact ih hpt
    · intro x hx
      exact hat x ((List.mem_insertionSort _).mp hx)

theorem mostCommon_perm (c : List (String × ℕ)) : List.Perm (mostCommon c) c :=
  List.perm_insertionSort _ c

theorem mostCommon_length (c : List (String × ℕ)) : (mostCommon c).length = c.length :=
  List.length_insertionSort _ c

theorem mostCommon_ne_nil {c : List (String × ℕ)} (h : c ≠ []) : mostCommon c ≠ [] := by
  intro hnil
  apply h
  apply List.length_eq_zero.mp
  rw [← mostCommon_length c, hnil]
  rfl

/-- `mostCommon` of a counter is descending by count, with ties kept in the
counter's first-seen key order. -/
theorem mostCommon_counterOf_pairwise (l : List String) :
    (mostCommon (counterOf l)).Pairwise
      (fun p q => q.2 < p.2 ∨ (p.2 = q.2 ∧ firstIdx p.1 l < firstIdx q.1 l)) := by
  unfold mostCommon
  exact insertionSort_count_stable (fun p => p.2) _ (counterOf l)
    (counterOf_pairwise_firstIdx l)

/-! ## Checked model

Python can raise only at list indexing (`[0]`) and at division; every such
operation below is `Option`-guarded (`none` = the exception path).  Every
`dict.get` read already has an explicit default in the source, so dict reads
stay total.  `_aggregate_notable_elements` and `_create_synthesis_prompt_data`
contain no indexing and no division, hence have no checked variant. -/

/-- Division, `none` on a zero divisor (Python `ZeroDivisionError`). -/
def safeDiv (a b : ℚ) : Option ℚ :=
  if b = 0 then none else some (a / b)

/-- Effectful map over a list in the `Option` monad (first failure wins). -/
def optionMapM {α β : Type} (f : α → Option β) : List α → Option (List β)
  | [] => some []
  | a :: l => (f a).bind (fun b => (optionMapM f l).map (fun bs => b :: bs))

theorem optionMapM_eq_some {α β : Type} (f : α → Option β) (g : α → β) :
    ∀ l : List α, (∀ a ∈ l, f a = some (g a)) → optionMapM f l = some (l.map g) := by
  intro l
  induction l with
  | nil => intro _; rfl
  | cons a t ih =>
    intro h
    rw [optionMapM, h a (List.mem_cons_self a t), ih (fun x hx => h x (List.mem_cons_of_mem a hx))]
    rfl

/-- Checked `counter.most_common(1)[0][0] if counter else fallback`. -/
def topOrChecked (c : List (String × ℕ)) (fallback : String) : Option String :=
  if c = [] then some fallback
  else (((mostCommon c).take 1)[0]?).map (fun p => p.1)

theorem topOrChecked_eq (c : List (String × ℕ)) (fallback : String) :
    topOrChecked c fallback = some (topOr c fallback) := by
  unfold topOrChecked topOr
  by_cases h : c = []
  · simp [h]
  · obtain ⟨p, t, hpt⟩ := List.exists_cons_of_ne_nil (mostCommon_ne_nil h)
    simp [h, hpt]

/-- Checked `_aggregate_scene_classifications`. -/
def aggregateSceneClassificationsChecked (analyses : List Analysis) : Option SceneSummary := do
  let primary_categories := counterOf (primaryOcc analyses)
  let all_categories := counterOf (sceneOcc analyses)
  let total := analyses.length
  let primary_ranked ← optionMapM (fun p =>
    (safeDiv (p.2 : ℚ) (total : ℚ)).map (fun q =>
      { category := p.1, count := p.2, percentage := pyRound (q * 100) 1 : RankedCategory }))
    (mostCommon primary_categories)
  let all_ranked ← optionMapM (fun p =>
    (safeDiv (p.2 : ℚ) (total : ℚ)).map (fun q =>
      { category := p.1, count := p.2, percentage := pyRound (q * 100) 1 : RankedCategory }))
    (mostCommon all_categories)
  let dominant ← if primary_ranked = [] then some "mixed"
    else (primary_ranked[0]?).map (fun r => r.category)
  pure { primary_categories := primary_ranked
         all_categories := all_ranked
         dominant_scene_type := dominant
         scene_diversity := primary_categories.length }

/-- Checked `_aggregate_segmented_elements` (explicit `Option.bind` chain). -/
def aggregateSegmentedElementsChecked (analyses : List Analysis) : Option ElementSummary :=
  let total := analyses.length
  (optionMapM (fun e =>
      (safeDiv ((elementPresence analyses e : ℕ) : ℚ) ((total : ℕ) : ℚ)).bind (fun rate =>
        (if elementPresence analyses e > 0 then
            (safeDiv (elementProminenceSum analyses e) ((elementPresence analyses e : ℕ) : ℚ)).map
              (fun q => pyRound q 2)
          else some 0).bind (fun avg =>
          some (e, { presence_count := elementPresence analyses e
                     presence_rate := pyRound (rate * 100) 1
                     avg_prominence := avg : ElementStats }))))
    elements_to_track).bind (fun element_stats =>
  (if peopleImages analyses > 0 then
      (safeDiv ((peopleCountTotal analyses : ℕ) : ℚ) ((peopleImages analyses : ℕ) : ℚ)).map
        (fun q => pyRound q 1)
    else some 0).map (fun avg_people =>
  { element_stats := element_stats
    ranked_by_presence := (element_stats.insertionSort elemKeyGE).map (fun p =>
      { element := p.1, presence_count := p.2.presence_count,
        presence_rate := p.2.presence_rate, avg_prominence := p.2.avg_prominence })
    dominant_elements :=
      ((element_stats.insertionSort elemKeyGE).filter (fun p => 50 ≤ p.2.presence_rate)).map
        (fun p => p.1)
    rare_elements :=
      ((element_stats.insertionSort elemKeyGE).filter
        (fun p => 0 < p.2.presence_rate ∧ p.2.presence_rate < 20)).map (fun p => p.1)
    people_presence := { images_with_people := peopleImages analyses
                         avg_people_per_image := avg_people } }))

/-- Checked `_aggregate_visual_features`. -/
def aggregateVisualFeaturesChecked (analyses : List Analysis) : Option VisualSummary := do
  let color_counts := counterOf (allColors analyses)
  let color_temperatures := counterOf (ctOcc analyses)
  let lighting_conditions := counterOf (lightingOcc analyses)
  let indoor_outdoor := counterOf (ioOcc analyses)
  let times_of_day := counterOf (todOcc analyses)
  let weather := counterOf (weatherOcc analyses)
  let ct ← topOrChecked color_temperatures "mixed"
  let li ← topOrChecked lighting_conditions "varied"
  let io ← topOrChecked indoor_outdoor "mixed"
  let tod ← topOrChecked times_of_day "varied"
  let w ← topOrChecked weather "varied"
  pure { top_colors := ((mostCommon color_counts).take 8).map (fun p => ⟨p.1, p.2⟩)
         unique_colors_mentioned := color_counts.length
         color_temperature_distribution := color_temperatures
         color_temperature_dominant := ct
         lighting_distribution := lighting_conditions
         lighting_dominant := li
         indoor_outdoor_distribution := indoor_outdoor
         primary_setting := io
         time_of_day_distribution := times_of_day
         time_of_day_most_common := tod
         weather_distribution := weather
         weather_most_common := w }

/-- Checked `_aggregate_mood_atmosphere`. -/
def aggregateMoodAtmosphereChecked (analyses : List Analysis) : Option MoodSummary := do
  let moods := counterOf (moodOcc analyses)
  let energy_levels := counterOf (energyOcc analyses)
  let tag_counts := counterOf (allTags analyses)
  let dominant ← topOrChecked moods "mixed"
  let energy ← topOrChecked energy_levels "medium"
  let consistency ← if moods = [] then pure 0
    else do
      let top ← ((mostCommon moods).take 1)[0]?
      safeDiv (top.2 : ℚ) (analyses.length : ℚ)
  pure { mood_distribution := moods
         dominant_mood := dominant
         secondary_moods :=
           if moods.length > 1 then (((mostCommon moods).take 3).drop 1).map (fun p => p.1)
           else []
         energy_distribution := energy_levels
         overall_energy := energy
         top_atmosphere_tags := ((mostCommon tag_counts).take 10).map (fun p => ⟨p.1, p.2⟩)
         mood_consistency := consistency }

/-- Checked `aggregate_album_analysis`. -/
def aggregate_album_analysis_checked (image_analyses : List ImageRecord) : Option AggResult :=
  let valid_analyses := validAnalyses image_analyses
  if valid_analyses = [] then
    some (.err "No valid image analyses to aggregate")
  else do
    let scene_summary ← aggregateSceneClassificationsChecked valid_analyses
    let element_summary ← aggregateSegmentedElementsChecked valid_analyses
    let visual_summary ← aggregateVisualFeaturesChecked valid_analyses
    let mood_summary ← aggregateMoodAtmosphereChecked valid_analyses
    let notable_summary := aggregateNotableElements valid_analyses
    pure (.ok
      { total_images_analyzed := valid_analyses.length
        scene_summary := scene_summary
        element_summary := element_summary
        visual_summary := visual_summary
        mood_summary := mood_summary
        notable_elements := notable_summary
        synthesis_prompt_data := createSynthesisPromptData scene_summary element_summary
          visual_summary mood_summary notable_summary })

/-! ## Agreement of the checked and total models -/

theorem optionMapM_some {α β : Type} (g : α → β) :
    ∀ l : List α, optionMapM (fun a => some (g a)) l = some (l.map g) := by
  intro l
  exact optionMapM_eq_some _ g l (fun a _ => rfl)

theorem length_cast_ne_zero {analyses : List Analysis} (h : analyses ≠ []) :
    ((analyses.length : ℕ) : ℚ) ≠ 0 :=
  Nat.cast_ne_zero.mpr (fun h0 => h (List.length_eq_zero.mp h0))

theorem aggregateSceneClassificationsChecked_eq {analyses : List Analysis} (h : analyses ≠ []) :
    aggregateSceneClassificationsChecked analyses = some (aggregateSceneClassifications analyses) := by
  have htot := length_cast_ne_zero h
  simp only [aggregateSceneClassificationsChecked, aggregateSceneClassifications, safeDiv, htot,
    if_false, Option.map_some', optionMapM_some, Option.bind_eq_bind, Option.some_bind]
  cases hL : mostCommon (counterOf (primaryOcc analyses)) with
  | nil => simp
  | cons p t => simp

theorem aggregateSegmentedElementsChecked_eq {analyses : List Analysis} (h : analyses ≠ []) :
    aggregateSegmentedElementsChecked analyses = some (aggregateSegmentedElements analyses) := by
  have htot := length_cast_ne_zero h
  have hmap : optionMapM (fun e =>
      (safeDiv ((elementPresence analyses e : ℕ) : ℚ) ((analyses.length : ℕ) : ℚ)).bind (fun rate =>
        (if elementPresence analyses e > 0 then
            (safeDiv (elementProminenceSum analyses e) ((elementPresence analyses e : ℕ) : ℚ)).map
              (fun q => pyRound q 2)
          else some 0).bind (fun avg =>
          some (e, { presence_count := elementPresence analyses e,
                     presence_rate := pyRound (rate * 100) 1,
                     avg_prominence := avg : ElementStats }))))
      elements_to_track
      = some (elements_to_track.map (fun e =>
          (e, { presence_count := elementPresence analyses e,
                presence_rate :=
                  pyRound ((elementPresence analyses e : ℚ) / (analyses.length : ℚ) * 100) 1,
                avg_prominence :=
                  if elementPresence analyses e > 0 then
                    pyRound (elementProminenceSum analyses e / (elementPresence analyses e : ℚ)) 2
                  else 0 : ElementStats }))) := by
    apply optionMapM_eq_some
    intro e _
    by_cases hp : elementPresence analyses e > 0
    · have hpne : ((elementPresence analyses e : ℕ) : ℚ) ≠ 0 :=
        Nat.cast_ne_zero.mpr (Nat.pos_iff_ne_zero.mp hp)
      simp [safeDiv, htot, hp, hpne]
    · simp [safeDiv, htot, hp]
  simp only [aggregateSegmentedElementsChecked, aggregateSegmentedElements, hmap,
    Option.some_bind]
  by_cases hpi : peopleImages analyses > 0
  · have hpine : ((peopleImages analyses : ℕ) : ℚ) ≠ 0 :=
      Nat.cast_ne_zero.mpr (Nat.pos_iff_ne_zero.mp hpi)
    rw [if_pos hpi, if_pos hpi]
    simp only [safeDiv]
    rw [if_neg hpine]
    simp only [Option.map_some']
  · rw [if_neg hpi, if_neg hpi]
    simp only [Option.map_some']

theorem aggregateVisualFeaturesChecked_eq (analyses : List Analysis) :
    aggregateVisualFeaturesChecked analyses = some (aggregateVisualFeatures analyses) := by
  simp only [aggregateVisualFeaturesChecked, aggregateVisualFeatures, topOrChecked_eq,
    Option.bind_eq_bind, Option.some_bind]
  rfl

theorem aggregateMoodAtmosphereChecked_eq {analyses : List Analysis} (h : analyses ≠ []) :
    aggregateMoodAtmosphereChecked analyses = some (aggregateMoodAtmosphere analyses) := by
  have htot := length_cast_ne_zero h
  simp only [aggregateMoodAtmosphereChecked, aggregateMoodAtmosphere, topOrChecked_eq,
    Option.bind_eq_bind, Option.some_bind]
  by_cases hm : counterOf (moodOcc analyses) = []
  · simp [hm]
  · obtain ⟨p, t, hpt⟩ := List.exists_cons_of_ne_nil (mostCommon_ne_nil hm)
    simp [hm, hpt, safeDiv, htot]

/-- The checked model agrees with the total model on every input: no
exception path of the Python code is reachable. -/
theorem aggregate_checked_agrees (image_analyses : List ImageRecord) :
    aggregate_album_analysis_checked image_analyses =
      some (aggregate_album_analysis image_analyses) := by
  by_cases h : validAnalyses image_analyses = []
  · simp [aggregate_album_analysis_checked, aggregate_album_analysis, h]
  · simp only [aggregate_album_analysis_checked, aggregate_album_analysis, h, if_false,
      aggregateSceneClassificationsChecked_eq h, aggregateSegmentedElementsChecked_eq h,
      aggregateVisualFeaturesChecked_eq, aggregateMoodAtmosphereChecked_eq h,
      Option.bind_eq_bind, Option.some_bind]
    rfl

/-! ## Shared helper lemmas for the claims -/

theorem recordValid_iff (r : ImageRecord) :
    recordValid r = true ↔
      r.success = true ∧ ∃ x, r.analysis = some x ∧ analysisNonEmpty x = true := by
  unfold recordValid
  cases h : r.analysis <;> simp [h]

theorem validAnalyses_eq_nil_iff (l : List ImageRecord) :
    validAnalyses l = [] ↔ ¬ ∃ r ∈ l, recordValid r = true := by
  unfold validAnalyses
  constructor
  · rintro h ⟨r, hr, hv⟩
    obtain ⟨-, x, hx, -⟩ := (recordValid_iff r).mp hv
    have hrf : r ∈ l.filter recordValid := List.mem_filter.mpr ⟨hr, hv⟩
    have := List.filterMap_eq_nil_iff.mp h r hrf
    rw [hx] at this
    cases this
  · intro h
    have hf : l.filter recordValid = [] :=
      List.filter_eq_nil_iff.mpr (fun r hr hv => h ⟨r, hr, hv⟩)
    rw [hf]
    rfl

/-- Shape of a success result of `aggregate_album_analysis`. -/
theorem aggregate_ok_elim {l : List ImageRecord} {p : AlbumProfile}
    (hp : aggregate_album_analysis l = AggResult.ok p) :
    validAnalyses l ≠ [] ∧
    p = { total_images_analyzed := (validAnalyses l).length
          scene_summary := aggregateSceneClassifications (validAnalyses l)
          element_summary := aggregateSegmentedElements (validAnalyses l)
          visual_summary := aggregateVisualFeatures (validAnalyses l)
          mood_summary := aggregateMoodAtmosphere (validAnalyses l)
          notable_elements := aggregateNotableElements (validAnalyses l)
          synthesis_prompt_data := createSynthesisPromptData
            (aggregateSceneClassifications (validAnalyses l))
            (aggregateSegmentedElements (validAnalyses l))
            (aggregateVisualFeatures (validAnalyses l))
            (aggregateMoodAtmosphere (validAnalyses l))
            (aggregateNotableElements (validAnalyses l)) } := by
  unfold aggregate_album_analysis at hp
  by_cases h : validAnalyses l = []
  · rw [if_pos h] at hp
    cases hp
  · rw [if_neg h] at hp
    injection hp with h2
    exact ⟨h, h2.symm⟩

theorem element_stats_keys (analyses : List Analysis) :
    ((aggregateSegmentedElements analyses).element_stats.map Prod.fst) = elements_to_track := by
  simp only [aggregateSegmentedElements, List.map_map]
  exact List.map_id' elements_to_track

/-- Membership in the key projection of a filtered ranking of an association
list with distinct keys is decided by the condition at the unique entry. -/
theorem mem_ranked_filter {stats : List (String × ElementStats)} {e : String} {s : ElementStats}
    (hnd : (stats.map Prod.fst).Nodup) (hs : (e, s) ∈ stats)
    (cond : String × ElementStats → Bool) :
    e ∈ (((stats.insertionSort elemKeyGE).filter cond).map (fun p => p.1)) ↔
      cond (e, s) = true := by
  constructor
  · intro h
    rcases List.mem_map.mp h with ⟨pr, hpr, hpre⟩
    rcases List.mem_filter.mp hpr with ⟨hprs, hcond⟩
    have hprmem : pr ∈ stats := (List.mem_insertionSort _).mp hprs
    have hpr_eq : pr = (e, s) :=
      List.inj_on_of_nodup_map hnd hprmem hs (by rw [hpre])
    rw [hpr_eq] at hcond
    exact hcond
  · intro h
    exact List.mem_map.mpr
      ⟨(e, s), List.mem_filter.mpr ⟨(List.mem_insertionSort _).mpr hs, h⟩, rfl⟩

theorem peopleQualifies_iff (a : Analysis) :
    peopleQualifies a = true ↔
      elemPresent a "people" = true ∧ (elemDataOf a "people").count.getD 0 ≠ 0 := by
  unfold peopleQualifies
  simp [bne_iff_ne]

theorem pyRound_percent_nonneg (n len : ℕ) :
    0 ≤ pyRound ((n : ℚ) / (len : ℚ) * 100) 1 :=
  pyRound_nonneg 1 (by positivity)

theorem pyRound_percent_le {n len : ℕ} (hlen : 0 < len) (hn : n ≤ len) :
    pyRound ((n : ℚ) / (len : ℚ) * 100) 1 ≤ 100 := by
  apply pyRound_le_hundred
  have h1 : (0 : ℚ) < (len : ℚ) := by exact_mod_cast hlen
  have h2 : ((n : ℕ) : ℚ) ≤ (len : ℚ) := by exact_mod_cast hn
  have h3 : (n : ℚ) / (len : ℚ) ≤ 1 := (div_le_one h1).mpr h2
  nlinarith

theorem pyRound_zero (d : ℕ) : pyRound 0 d = 0 := by
  unfold pyRound roundHalfEven
  norm_num

/-! ## Claims -/

/-- C1: `aggregate_album_analysis` returns an error result — carrying no
profile — if and only if zero input records survive the validity filter,
where a record survives exactly when its success flag is true and its
analysis payload is non-empty; for every input list with at least one
surviving record it returns a success result containing a full profile. -/
theorem C1_noValidInput_iff (l : List ImageRecord) :
    ((∃ e, aggregate_album_analysis l = AggResult.err e) ↔
      ¬ ∃ r ∈ l, r.success = true ∧ ∃ x, r.analysis = some x ∧ analysisNonEmpty x = true) ∧
    ((∃ r ∈ l, r.success = true ∧ ∃ x, r.analysis = some x ∧ analysisNonEmpty x = true) →
      ∃ p, aggregate_album_analysis l = AggResult.ok p) := by
  have hiff : validAnalyses l = [] ↔
      ¬ ∃ r ∈ l, r.success = true ∧ ∃ x, r.analysis = some x ∧ analysisNonEmpty x = true := by
    rw [validAnalyses_eq_nil_iff]
    constructor
    · rintro h ⟨r, hr, hc⟩
      exact h ⟨r, hr, (recordValid_iff r).mpr hc⟩
    · rintro h ⟨r, hr, hv⟩
      exact h ⟨r, hr, (recordValid_iff r).mp hv⟩
  constructor
  · rw [← hiff]
    unfold aggregate_album_analysis
    by_cases h : validAnalyses l = [] <;> simp [h]
  · intro hs
    have hne : validAnalyses l ≠ [] := fun h0 => (hiff.mp h0) hs
    unfold aggregate_album_analysis
    rw [if_neg hne]
    exact ⟨_, rfl⟩

/-- C7: the five reducers and the synthesis projector complete without
raising an exception on every input, whatever fields or blocks are absent:
the checked model, in which every Python operation that can raise (list
indexing, division) is `Option`-guarded, agrees with the total model — so no
exception path is reachable and every absent field takes its documented
default. -/
theorem C7_no_exception (l : List ImageRecord) :
    aggregate_album_analysis_checked l = some (aggregate_album_analysis l) :=
  aggregate_checked_agrees l

/-- C8: in the scene reducer's ranked lists (primary-only and combined),
the ranking is descending by count, and two entries with equal counts appear
in the order of the first occurrence of their categories in the respective
occurrence sequence (first-seen tie-break); the stated relation is a strict
total order on the entries. -/
theorem C8_scene_tie_break (analyses : List Analysis) :
    (aggregateSceneClassifications analyses).primary_categories.Pairwise
      (fun a b => b.count < a.count ∨
        (a.count = b.count ∧
          firstIdx a.category (primaryOcc analyses) < firstIdx b.category (primaryOcc analyses))) ∧
    (aggregateSceneClassifications analyses).all_categories.Pairwise
      (fun a b => b.count < a.count ∨
        (a.count = b.count ∧
          firstIdx a.category (sceneOcc analyses) < firstIdx b.category (sceneOcc analyses))) := by
  constructor
  · simp only [aggregateSceneClassifications, List.pairwise_map]
    exact mostCommon_counterOf_pairwise (primaryOcc analyses)
  · simp only [aggregateSceneClassifications, List.pairwise_map]
    exact mostCommon_counterOf_pairwise (sceneOcc analyses)

/-- C9: `aggregate_album_analysis` is deterministic — two invocations on the
same input sequence (same records, same order) produce identical results; in
this model the aggregation is a pure function of its input list. -/
theorem C9_deterministic (l1 l2 : List ImageRecord) (h : l1 = l2) :
    aggregate_album_analysis l1 = aggregate_album_analysis l2 := by
  rw [h]

/-- Witness for C9 at a concrete input. -/
theorem C9_deterministic_witness :
    aggregate_album_analysis [{ success := true, analysis := some { notable_elements := some ["x"] } }] =
      aggregate_album_analysis [{ success := true, analysis := some { notable_elements := some ["x"] } }] :=
  C9_deterministic _ _ rfl

/-! ### C2 -/

/-- One valid record whose `people` element is present but carries no
`count` key (`count` defaults to `0`, which is falsy). -/
def exC2input : List ImageRecord :=
  [{ success := true,
     analysis := some { segmented_elements := some { people := some { present := some true } } } }]

/-- C2 counterexample: on `exC2input` exactly one valid record has the
people element present (so the count of images where people are present is
`1 > 0`), yet `has_people` is `false` — refuting the claim that `has_people`
is true iff the number of images with the people element present is
positive. -/
theorem C2_has_people_counterexample :
    ((validAnalyses exC2input).filter (fun a => elemPresent a "people")).length = 1 ∧
    (profileOf (aggregate_album_analysis exC2input)).map
        (fun p => p.synthesis_prompt_data.has_people) = some false := by
  exact ⟨rfl, rfl⟩

/-- C2 amended: `has_people` is true iff at least one valid record has the
people element present *with a truthy (non-zero) people count* — the code
counts `people_images`, which additionally requires `count` to be truthy, so
records with people present but a missing or zero count do not make
`has_people` true. -/
theorem C2_has_people_amended (l : List ImageRecord) (p : AlbumProfile)
    (hp : aggregate_album_analysis l = AggResult.ok p) :
    (p.synthesis_prompt_data.has_people = true ↔
      ∃ a ∈ validAnalyses l, elemPresent a "people" = true ∧
        (elemDataOf a "people").count.getD 0 ≠ 0) := by
  obtain ⟨hne, rfl⟩ := aggregate_ok_elim hp
  simp only [createSynthesisPromptData, aggregateSegmentedElements]
  rw [decide_eq_true_iff]
  unfold peopleImages
  rw [← List.countP_eq_length_filter, List.countP_pos_iff]
  simp only [peopleQualifies_iff]

/-- A `people` element that is present with `count = 2`. -/
def exC2wpeople : ElemData :=
  { present := some true, prominence := some (1/2), count := some 2 }

def exC2wanalysis : Analysis :=
  { segmented_elements := some { people := some exC2wpeople } }

/-- One valid record whose `people` element is present with `count = 2`. -/
def exC2winput : List ImageRecord :=
  [{ success := true, analysis := some exC2wanalysis }]

def exC2wprofile : AlbumProfile :=
  (profileOf (aggregate_album_analysis exC2winput)).getD default

/-- Witness for the amended C2 at a concrete input. -/
theorem C2_has_people_amended_witness :
    exC2wprofile.synthesis_prompt_data.has_people = true :=
  (C2_has_people_amended exC2winput exC2wprofile (by rfl)).mpr
    ⟨exC2wanalysis, by exact List.Mem.head _, by decide, by decide⟩

/-! ### C3 -/

/-- Two valid records with notable elements `["a", "b"]` and
`["a", "b", "b"]`: counts are `a ↦ 2`, `b ↦ 3`. -/
def exC3input : List ImageRecord :=
  [{ success := true, analysis := some { notable_elements := some ["a", "b"] } },
   { success := true, analysis := some { notable_elements := some ["a", "b", "b"] } }]

/-- C3 counterexample: on `exC3input` the top-20 ranked list is
`[b(3), a(2)]` (frequency order), but `recurring_elements` is `["a", "b"]` —
counter insertion order, not the frequency order of the top-20 list claimed
by C3. -/
theorem C3_recurring_counterexample :
    (profileOf (aggregate_album_analysis exC3input)).map
        (fun p => p.notable_elements.recurring_elements) = some ["a", "b"] ∧
    (profileOf (aggregate_album_analysis exC3input)).map
        (fun p => p.notable_elements.all_notable_elements) =
      some [{ element := "b", count := 3 }, { element := "a", count := 2 }] := by
  exact ⟨rfl, rfl⟩

/-- C3 amended: `recurring_elements` contains exactly the notable entries
whose total occurrence count is at least 2, listed in first-seen input order
(the counter's insertion order, `notable_counts.items()`), not in the
frequency order of the top-20 list; its length is the number of distinct
such entries and is not capped at 20. -/
theorem C3_recurring_amended (l : List ImageRecord) (p : AlbumProfile)
    (hp : aggregate_album_analysis l = AggResult.ok p) :
    (∀ e, e ∈ p.notable_elements.recurring_elements ↔
      2 ≤ (allNotable (validAnalyses l)).count e) ∧
    p.notable_elements.recurring_elements.Pairwise
      (fun a b => firstIdx a (allNotable (validAnalyses l)) <
        firstIdx b (allNotable (validAnalyses l))) := by
  obtain ⟨hne, rfl⟩ := aggregate_ok_elim hp
  simp only [aggregateNotableElements]
  constructor
  · intro e
    constructor
    · intro h
      rcases List.mem_map.mp h with ⟨pr, hpr, hpre⟩
      rcases List.mem_filter.mp hpr with ⟨hprc, hcond⟩
      obtain ⟨-, hcnt⟩ := counterOf_count hprc
      rw [← hpre, ← hcnt]
      exact of_decide_eq_true hcond
    · intro h
      have hmem : e ∈ allNotable (validAnalyses l) := by
        have h0 : 0 < (allNotable (validAnalyses l)).count e :=
          lt_of_lt_of_le (by norm_num) h
        exact List.count_pos_iff.mp h0
      have hkey := counterOf_mem_keys hmem
      rcases List.mem_map.mp hkey with ⟨pr, hpr, hpre⟩
      obtain ⟨-, hcnt⟩ := counterOf_count hpr
      apply List.mem_map.mpr
      refine ⟨pr, List.mem_filter.mpr ⟨hpr, ?_⟩, hpre⟩
      apply decide_eq_true
      rw [hcnt, hpre]
      exact h
  · rw [List.pairwise_map]
    exact (counterOf_pairwise_firstIdx (allNotable (validAnalyses l))).filter _

def exC3wprofile : AlbumProfile :=
  (profileOf (aggregate_album_analysis exC3input)).getD default

/-- Witness for the amended C3 at a concrete input. -/
theorem C3_recurring_amended_witness :
    ("b" ∈ exC3wprofile.notable_elements.recurring_elements ↔
      2 ≤ (allNotable (validAnalyses exC3input)).count "b") :=
  (C3_recurring_amended exC3input exC3wprofile (by rfl)).1 "b"

/-! ### C4 -/

def exC4scene : SceneBlock :=
  { primary_category := some "beach", secondary_categories := ["beach"] }

/-- One valid record whose primary category `"beach"` also appears among its
secondary categories: the combined tally receives two contributions from a
single record. -/
def exC4input : List ImageRecord :=
  [{ success := true, analysis := some { scene_classification := some exC4scene } }]

def exC4profile : AlbumProfile :=
  (profileOf (aggregate_album_analysis exC4input)).getD default

theorem exC4_percentage_200 :
    pyRound (((2 : ℕ) : ℚ) / ((1 : ℕ) : ℚ) * 100) 1 = 200 := by
  norm_num [pyRound, roundHalfEven]

/-- C4 counterexample: with one valid record whose primary also appears in
its secondary categories, the combined ranked list reports
`count = 2, percentage = 200.0` against a valid-record count of 1 — the
percentage formula holds but the value lies outside `[0, 100]`, refuting the
claim's bound. -/
theorem C4_percentage_counterexample :
    (profileOf (aggregate_album_analysis exC4input)).map (fun p => p.scene_summary.all_categories) =
      some [{ category := "beach", count := 2, percentage := 200 }] ∧
    ¬ ((200 : ℚ) ≤ 100) := by
  constructor
  · have h : (profileOf (aggregate_album_analysis exC4input)).map
        (fun p => p.scene_summary.all_categories) =
        some [{ category := "beach", count := 2,
                percentage := pyRound (((2 : ℕ) : ℚ) / ((1 : ℕ) : ℚ) * 100) 1 }] := rfl
    rw [h, exC4_percentage_200]
  · norm_num

/-- C4 amended: every percentage/rate in the scene reducer's ranked lists
and the element reducer's stats equals (count / valid-record-count * 100)
rounded to 1 decimal, with the valid-record count — never the raw input
count — as denominator, and is non-negative; primary-list percentages and
element presence rates also lie in `[0, 100]`, but a combined-list
percentage can exceed 100 when one record contributes more than once to the
same category (primary repeated among secondaries, or duplicate
secondaries). -/
theorem C4_percentage_law (l : List ImageRecord) (p : AlbumProfile)
    (hp : aggregate_album_analysis l = AggResult.ok p) :
    (∀ c ∈ p.scene_summary.primary_categories,
      c.percentage = pyRound ((c.count : ℚ) / ((validAnalyses l).length : ℚ) * 100) 1 ∧
      0 ≤ c.percentage ∧ c.percentage ≤ 100) ∧
    (∀ c ∈ p.scene_summary.all_categories,
      c.percentage = pyRound ((c.count : ℚ) / ((validAnalyses l).length : ℚ) * 100) 1 ∧
      0 ≤ c.percentage) ∧
    (∀ pr ∈ p.element_summary.element_stats,
      pr.2.presence_rate =
        pyRound ((pr.2.presence_count : ℚ) / ((validAnalyses l).length : ℚ) * 100) 1 ∧
      0 ≤ pr.2.presence_rate ∧ pr.2.presence_rate ≤ 100) := by
  obtain ⟨hne, rfl⟩ := aggregate_ok_elim hp
  have hlen : 0 < (validAnalyses l).length := List.length_pos.mpr hne
  refine ⟨?_, ?_, ?_⟩
  · intro c hc
    simp only [aggregateSceneClassifications] at hc
    rcases List.mem_map.mp hc with ⟨pr, hpr, rfl⟩
    have hprc : pr ∈ counterOf (primaryOcc (validAnalyses l)) := (mostCommon_perm _).subset hpr
    obtain ⟨hmem, hcnt⟩ := counterOf_count hprc
    have hcle : pr.2 ≤ (validAnalyses l).length := by
      rw [hcnt]
      calc (primaryOcc (validAnalyses l)).count pr.1
          ≤ (primaryOcc (validAnalyses l)).length := List.count_le_length _ _
        _ ≤ (validAnalyses l).length := List.length_filterMap_le _ _
    exact ⟨rfl, pyRound_percent_nonneg _ _, pyRound_percent_le hlen hcle⟩
  · intro c hc
    simp only [aggregateSceneClassifications] at hc
    rcases List.mem_map.mp hc with ⟨pr, hpr, rfl⟩
    exact ⟨rfl, pyRound_percent_nonneg _ _⟩
  · intro pr hpr
    simp only [aggregateSegmentedElements] at hpr
    rcases List.mem_map.mp hpr with ⟨e, he, rfl⟩
    have hcle : elementPresence (validAnalyses l) e ≤ (validAnalyses l).length := by
      unfold elementPresence
      exact List.length_filter_le _ _
    exact ⟨rfl, pyRound_percent_nonneg _ _, pyRound_percent_le hlen hcle⟩

/-- Top entry of the primary ranking on `exC4input`. -/
def exC4entry : RankedCategory :=
  exC4profile.scene_summary.primary_categories.getD 0 default

/-- Witness for the amended C4 at a concrete input. -/
theorem C4_percentage_law_witness :
    exC4entry.percentage =
      pyRound ((exC4entry.count : ℚ) / ((validAnalyses exC4input).length : ℚ) * 100) 1 ∧
    0 ≤ exC4entry.percentage ∧ exC4entry.percentage ≤ 100 :=
  (C4_percentage_law exC4input exC4profile (by rfl)).1 exC4entry (by exact List.Mem.head _)

/-! ### C5 -/

theorem dominant_mem_iff {analyses : List Analysis} {e : String} {s : ElementStats}
    (hs : (e, s) ∈ (aggregateSegmentedElements analyses).element_stats) :
    (e ∈ (aggregateSegmentedElements analyses).dominant_elements ↔ 50 ≤ s.presence_rate) := by
  have hnd : (((aggregateSegmentedElements analyses).element_stats).map Prod.fst).Nodup := by
    rw [element_stats_keys]
    decide
  have h := mem_ranked_filter hnd hs (fun pr => decide (50 ≤ pr.2.presence_rate))
  rw [decide_eq_true_iff] at h
  exact h

theorem rare_mem_iff {analyses : List Analysis} {e : String} {s : ElementStats}
    (hs : (e, s) ∈ (aggregateSegmentedElements analyses).element_stats) :
    (e ∈ (aggregateSegmentedElements analyses).rare_elements ↔
      0 < s.presence_rate ∧ s.presence_rate < 20) := by
  have hnd : (((aggregateSegmentedElements analyses).element_stats).map Prod.fst).Nodup := by
    rw [element_stats_keys]
    decide
  have h := mem_ranked_filter hnd hs
    (fun pr => decide (0 < pr.2.presence_rate ∧ pr.2.presence_rate < 20))
  rw [decide_eq_true_iff] at h
  exact h

/-- C5: for every input with at least one valid record and every tracked
element, the element is in `dominant_elements` iff its `presence_rate` is at
least 50 (a rate of exactly 50.0 included), and in `rare_elements` iff its
`presence_rate` is strictly between 0 and 20 (exactly 20.0 excluded). -/
theorem C5_thresholds (l : List ImageRecord) (p : AlbumProfile) (e : String) (s : ElementStats)
    (hp : aggregate_album_analysis l = AggResult.ok p)
    (hs : (e, s) ∈ p.element_summary.element_stats) :
    (e ∈ p.element_summary.dominant_elements ↔ 50 ≤ s.presence_rate) ∧
    (e ∈ p.element_summary.rare_elements ↔ 0 < s.presence_rate ∧ s.presence_rate < 20) := by
  obtain ⟨hne, rfl⟩ := aggregate_ok_elim hp
  exact ⟨dominant_mem_iff hs, rare_mem_iff hs⟩

def exC5people : ElemData :=
  { present := some true, prominence := some (1/2), count := some 2 }

def exC5sky : ElemData :=
  { present := some true, prominence := some (9/10) }

/-- Two valid records; people present in exactly one of them, so the people
presence rate is exactly the boundary value 50.0. -/
def exC5input : List ImageRecord :=
  [{ success := true, analysis := some { segmented_elements := some { people := some exC5people } } },
   { success := true, analysis := some { segmented_elements := some { sky := some exC5sky } } }]

def exC5profile : AlbumProfile :=
  (profileOf (aggregate_album_analysis exC5input)).getD default

/-- The `people` entry (index 3) of `element_stats` on `exC5input`. -/
def exC5entry : String × ElementStats :=
  exC5profile.element_summary.element_stats.getD 3 default

/-- The people presence rate on `exC5input` is exactly the boundary 50.0. -/
theorem exC5entry_rate : exC5entry.2.presence_rate = 50 := by
  have h : exC5entry.2.presence_rate = pyRound (((1 : ℕ) : ℚ) / ((2 : ℕ) : ℚ) * 100) 1 := rfl
  rw [h]
  norm_num [pyRound, roundHalfEven]

/-- Witness for C5 at the boundary rate 50.0. -/
theorem C5_thresholds_witness :
    ("people" ∈ exC5profile.element_summary.dominant_elements ↔
      50 ≤ exC5entry.2.presence_rate) ∧
    ("people" ∈ exC5profile.element_summary.rare_elements ↔
      0 < exC5entry.2.presence_rate ∧ exC5entry.2.presence_rate < 20) :=
  C5_thresholds exC5input exC5profile "people" exC5entry.2 (by rfl)
    (by exact List.Mem.tail _ (List.Mem.tail _ (List.Mem.tail _ (List.Mem.head _))))

/-! ### C6 -/

/-- One valid record carrying only notable elements: every optional
single-winner field has zero occurrences. -/
def exC6input : List ImageRecord :=
  [{ success := true, analysis := some { notable_elements := some ["x"] } }]

def exC6profile : AlbumProfile :=
  (profileOf (aggregate_album_analysis exC6input)).getD default

/-- C6 counterexample: on a valid input with zero `color_temperature`
occurrences the dominant color temperature is the literal `"mixed"`, not
`"varied"` as the claim's position-wise literal list (7 literals for 8
fields) assigns to it. -/
theorem C6_fallback_counterexample :
    ctOcc (validAnalyses exC6input) = [] ∧
    (profileOf (aggregate_album_analysis exC6input)).map
        (fun p => p.visual_summary.color_temperature_dominant) = some "mixed" ∧
    "mixed" ≠ "varied" := by
  refine ⟨rfl, rfl, by decide⟩

/-- C6 amended: for every optional single-winner field, an input list with
at least one valid record but zero occurrences of that field yields the
documented fallback literal — `dominant_scene_type ↦ "mixed"`,
`color_temperature.dominant ↦ "mixed"`, `lighting.dominant ↦ "varied"`,
`setting.primary_setting ↦ "mixed"`, `time_of_day.most_common ↦ "varied"`,
`weather.most_common ↦ "varied"`, `dominant_mood ↦ "mixed"`,
`overall_energy ↦ "medium"` — never an empty string or a missing key. -/
theorem C6_fallbacks_amended (l : List ImageRecord) (p : AlbumProfile)
    (hp : aggregate_album_analysis l = AggResult.ok p) :
    ((∀ a ∈ validAnalyses l, strTruthy (sceneOf a).primary_category = none) →
      p.scene_summary.dominant_scene_type = "mixed") ∧
    ((∀ a ∈ validAnalyses l, strTruthy (visualOf a).color_temperature = none) →
      p.visual_summary.color_temperature_dominant = "mixed") ∧
    ((∀ a ∈ validAnalyses l, strTruthy (visualOf a).lighting_condition = none) →
      p.visual_summary.lighting_dominant = "varied") ∧
    ((∀ a ∈ validAnalyses l, strTruthy (visualOf a).indoor_outdoor = none) →
      p.visual_summary.primary_setting = "mixed") ∧
    ((∀ a ∈ validAnalyses l, strTruthy (visualOf a).time_of_day = none) →
      p.visual_summary.time_of_day_most_common = "varied") ∧
    ((∀ a ∈ validAnalyses l, strTruthy (visualOf a).weather_apparent = none) →
      p.visual_summary.weather_most_common = "varied") ∧
    ((∀ a ∈ validAnalyses l, strTruthy (moodOf a).overall_mood = none) →
      p.mood_summary.dominant_mood = "mixed") ∧
    ((∀ a ∈ validAnalyses l, strTruthy (moodOf a).energy_level = none) →
      p.mood_summary.overall_energy = "medium") := by
  obtain ⟨hne, rfl⟩ := aggregate_ok_elim hp
  refine ⟨?_, ?_, ?_, ?_, ?_, ?_, ?_, ?_⟩
  · intro hc
    have h0 : primaryOcc (validAnalyses l) = [] := List.filterMap_eq_nil_iff.mpr hc
    simp only [aggregateSceneClassifications]
    rw [h0]
    rfl
  · intro hc
    have h0 : ctOcc (validAnalyses l) = [] := List.filterMap_eq_nil_iff.mpr hc
    simp only [aggregateVisualFeatures]
    rw [h0]
    rfl
  · intro hc
    have h0 : lightingOcc (validAnalyses l) = [] := List.filterMap_eq_nil_iff.mpr hc
    simp only [aggregateVisualFeatures]
    rw [h0]
    rfl
  · intro hc
    have h0 : ioOcc (validAnalyses l) = [] := List.filterMap_eq_nil_iff.mpr hc
    simp only [aggregateVisualFeatures]
    rw [h0]
    rfl
  · intro hc
    have h0 : todOcc (validAnalyses l) = [] := List.filterMap_eq_nil_iff.mpr hc
    simp only [aggregateVisualFeatures]
    rw [h0]
    rfl
  · intro hc
    have h0 : weatherOcc (validAnalyses l) = [] := List.filterMap_eq_nil_iff.mpr hc
    simp only [aggregateVisualFeatures]
    rw [h0]
    rfl
  · intro hc
    have h0 : moodOcc (validAnalyses l) = [] := List.filterMap_eq_nil_iff.mpr hc
    simp only [aggregateMoodAtmosphere]
    rw [h0]
    rfl
  · intro hc
    have h0 : energyOcc (validAnalyses l) = [] := List.filterMap_eq_nil_iff.mpr hc
    simp only [aggregateMoodAtmosphere]
    rw [h0]
    rfl

/-- Witness for the amended C6 at a concrete input with zero occurrences of
each optional field. -/
theorem C6_fallbacks_amended_witness :
    exC6profile.scene_summary.dominant_scene_type = "mixed" ∧
    exC6profile.visual_summary.color_temperature_dominant = "mixed" ∧
    exC6profile.visual_summary.lighting_dominant = "varied" ∧
    exC6profile.visual_summary.primary_setting = "mixed" ∧
    exC6profile.visual_summary.time_of_day_most_common = "varied" ∧
    exC6profile.visual_summary.weather_most_common = "varied" ∧
    exC6profile.mood_summary.dominant_mood = "mixed" ∧
    exC6profile.mood_summary.overall_energy = "medium" := by
  have h := C6_fallbacks_amended exC6input exC6profile (by rfl)
  exact ⟨h.1 (by decide), h.2.1 (by decide), h.2.2.1 (by decide), h.2.2.2.1 (by decide),
         h.2.2.2.2.1 (by decide), h.2.2.2.2.2.1 (by decide), h.2.2.2.2.2.2.1 (by decide),
         h.2.2.2.2.2.2.2 (by decide)⟩

/-! ### C10 -/

theorem elemPresent_of_no_segments {a : Analysis} (h : a.segmented_elements = none)
    (e : String) : elemPresent a e = false := by
  unfold elemPresent elemDataOf segOf
  rw [h]
  unfold SegmentedElements.get
  split_ifs <;> rfl

/-- C10: `element_stats` always contains exactly the seven tracked element
names as keys, in order, each entry carrying the three statistics fields;
when no valid record has a `segmented_elements` block at all, every entry is
`presence_count = 0, presence_rate = 0.0, avg_prominence = 0`. -/
theorem C10_element_stats_universe (l : List ImageRecord) (p : AlbumProfile)
    (hp : aggregate_album_analysis l = AggResult.ok p) :
    p.element_summary.element_stats.map Prod.fst = elements_to_track ∧
    ((∀ a ∈ validAnalyses l, a.segmented_elements = none) →
      ∀ pr ∈ p.element_summary.element_stats,
        pr.2 = { presence_count := 0, presence_rate := 0, avg_prominence := 0 }) := by
  obtain ⟨hne, rfl⟩ := aggregate_ok_elim hp
  constructor
  · exact element_stats_keys _
  · intro hseg pr hpr
    have hzero : ∀ e, elementPresence (validAnalyses l) e = 0 := by
      intro e
      unfold elementPresence
      rw [List.length_eq_zero]
      exact List.filter_eq_nil_iff.mpr
        (fun a ha => by simp [elemPresent_of_no_segments (hseg a ha) e])
    simp only [aggregateSegmentedElements] at hpr
    rcases List.mem_map.mp hpr with ⟨e, he, rfl⟩
    simp [hzero e, pyRound_zero]

/-- One valid record carrying only notable elements: no record has a
`segmented_elements` block. -/
def exC10input : List ImageRecord :=
  [{ success := true, analysis := some { notable_elements := some ["y"] } }]

def exC10profile : AlbumProfile :=
  (profileOf (aggregate_album_analysis exC10input)).getD default

def exC10entry : String × ElementStats :=
  exC10profile.element_summary.element_stats.getD 0 default

/-- Witness for C10 at a concrete input with no segmented-elements data. -/
theorem C10_element_stats_universe_witness :
    exC10profile.element_summary.element_stats.map Prod.fst = elements_to_track ∧
    exC10entry.2 = { presence_count := 0, presence_rate := 0, avg_prominence := 0 } :=
  ⟨(C10_element_stats_universe exC10input exC10profile (by rfl)).1,
   (C10_element_stats_universe exC10input exC10profile (by rfl)).2 (by decide) exC10entry
     (by exact List.Mem.head _)⟩
